/-
Verification of the ETF projection application (src/app5.py) against its
natural-language specification.

The development shallowly embeds the three core components:
  * `get_historical_metrics`  (app5.py lines 41-84)  — the Extractor,
  * `calculate_projection`    (app5.py lines 87-153) — the Simulator,
  * the PK comparison block   (app5.py lines 221-225) — the Comparison Engine,
together with the orchestration of the main block (lines 156-177).

Modelling conventions:
  * Python floats are modelled as real numbers (`ℝ`); `x ** y` is `Real.rpow`.
  * A pandas timestamp is modelled by `HDate`: an absolute day number
    (for `(t2 - t1).days`) together with its calendar year (for
    `resample('YE')` grouping).
  * `stock.history` / `stock.dividends` together with the surrounding
    `try ... except` are modelled by an `Except String` input: either the
    fetched pair of series or the message of a raised exception.
  * `resample('YE').sum()` over a non-empty series produces one entry for
    every calendar year between the first and the last year of the index
    (missing years giving sum 0); `resample('YE').mean()` likewise, with
    missing years giving NaN, and `Series.mean()` skips NaN entries.  The
    model therefore averages the yearly ratios over the years of `common`
    that carry at least one price observation.
  * The source rounds values when appending each row to the report
    DataFrame (lines 144-150); those roundings are presentation of the
    running totals, and snapshots here carry the unrounded running totals.
-/
import Mathlib

namespace ETFApp

noncomputable section

/-- A calendar date as the model needs it: absolute day count and calendar
year (app5.py uses `.days` of index differences and `resample('YE')`). -/
structure HDate where
  absDay : ℤ
  year : ℤ
deriving DecidableEq

/-- The metrics dictionary returned by `get_historical_metrics`
(app5.py lines 76-82). -/
structure HistMetrics where
  symbol : String
  cagr : ℝ
  yld : ℝ
  current_price : ℝ
  years_data : ℝ

/-- The literal key set of the dictionary returned by
`get_historical_metrics` (app5.py lines 76-82). -/
def metricsKeys : List String :=
  ["symbol", "cagr", "yield", "current_price", "years_data"]

/-- First element of a series (`iloc[0]`), with a default for the empty
series (never used on empty input). -/
def firstP (l : List (HDate × ℝ)) : HDate × ℝ := l.headD (⟨0, 0⟩, 0)

/-- Last element of a series (`iloc[-1]`). -/
def lastP (l : List (HDate × ℝ)) : HDate × ℝ := l.getLastD (⟨0, 0⟩, 0)

/-- `(hist.index[-1] - hist.index[0]).days / 365.25` (app5.py lines 53-54). -/
def rawYears (hist : List (HDate × ℝ)) : ℝ :=
  (((lastP hist).1.absDay - (firstP hist).1.absDay : ℤ) : ℝ) / 365.25

/-- `years_past` after the clamp of app5.py line 56. -/
def years_past (hist : List (HDate × ℝ)) : ℝ :=
  if rawYears hist < 0.01 then 0.01 else rawYears hist

/-- `price_cagr` of app5.py lines 58-61. -/
def price_cagr (hist : List (HDate × ℝ)) : ℝ :=
  if 0 < (firstP hist).2 then
    ((lastP hist).2 / (firstP hist).2) ^ ((1 : ℝ) / years_past hist) - 1
  else 0

/-- Sum of the distribution amounts recorded in calendar year `y`
(one entry of `divs.resample('YE').sum()`, app5.py line 66). -/
def yearSum (divs : List (HDate × ℝ)) (y : ℤ) : ℝ :=
  ((divs.filter (fun d => d.1.year = y)).map (fun d => d.2)).sum

/-- Number of price observations in calendar year `y`. -/
def yearCount (hist : List (HDate × ℝ)) (y : ℤ) : ℕ :=
  (hist.filter (fun p => p.1.year = y)).length

/-- Mean close in calendar year `y` (one entry of
`hist['Close'].resample('YE').mean()`, app5.py line 67). -/
def yearMean (hist : List (HDate × ℝ)) (y : ℤ) : ℝ :=
  ((hist.filter (fun p => p.1.year = y)).map (fun p => p.2)).sum /
    (yearCount hist y : ℝ)

/-- The calendar years carried by `divs.resample('YE')`: every year between
the first and last year of the dividend index. -/
def divYearsRange (divs : List (HDate × ℝ)) : Finset ℤ :=
  Finset.Icc (firstP divs).1.year (lastP divs).1.year

/-- The calendar years carried by `hist['Close'].resample('YE')`. -/
def priceYearsRange (hist : List (HDate × ℝ)) : Finset ℤ :=
  Finset.Icc (firstP hist).1.year (lastP hist).1.year

/-- `common = yearly_divs.index.intersection(yearly_prices.index)`
(app5.py line 68). -/
def commonYears (hist divs : List (HDate × ℝ)) : Finset ℤ :=
  divYearsRange divs ∩ priceYearsRange hist

/-- The years of `common` whose yearly price mean is an actual number
(pandas gives NaN for a gap year inside the price range and `Series.mean()`
skips NaN entries of `yearly_divs[common] / yearly_prices[common]`). -/
def validCommon (hist divs : List (HDate × ℝ)) : Finset ℤ :=
  (commonYears hist divs).filter (fun y => 0 < yearCount hist y)

/-- Sum of all recorded distribution amounts (`divs.sum()`). -/
def divTotal (divs : List (HDate × ℝ)) : ℝ :=
  (divs.map (fun d => d.2)).sum

/-- Mean over all price observations (`hist['Close'].mean()`). -/
def priceMeanAll (hist : List (HDate × ℝ)) : ℝ :=
  (hist.map (fun p => p.2)).sum / (hist.length : ℝ)

/-- `avg_yield` of app5.py lines 63-74. -/
def extractYield (hist divs : List (HDate × ℝ)) : ℝ :=
  match divs with
  | [] => 0
  | _ :: _ =>
    if 0 < (commonYears hist divs).card then
      (∑ y ∈ validCommon hist divs, yearSum divs y / yearMean hist y) /
        ((validCommon hist divs).card : ℝ)
    else
      divTotal divs / priceMeanAll hist * (1 / years_past hist)

/-- `get_historical_metrics` (app5.py lines 41-84).  The fallible fetch and
the enclosing `try ... except` are modelled by the `Except` input: a raised
exception's message is returned as the error component. -/
def get_historical_metrics (symbol : String)
    (fetched : Except String (List (HDate × ℝ) × List (HDate × ℝ))) :
    Option HistMetrics × Option String :=
  match fetched with
  | .error e => (none, some e)
  | .ok (hist, divs) =>
    match hist with
    | [] => (none, some ("找不到 " ++ symbol ++ " 的資料"))
    | _ :: _ =>
      (some { symbol := symbol
            , cagr := price_cagr hist
            , yld := extractYield hist divs
            , current_price := (lastP hist).2
            , years_data := years_past hist }, none)

/-- The arguments of `calculate_projection` other than `metrics`
(app5.py line 87). -/
structure SimConfig where
  initial_fund : ℝ
  monthly_amt : ℝ
  years : ℕ
  is_reinvest : Bool

/-- The running state of the simulation loop (app5.py lines 94-103). -/
structure SimState where
  current_price : ℝ
  total_shares : ℝ
  total_cost : ℝ
  cash_wallet : ℝ
  total_divs : ℝ

/-- One row appended to `data` (app5.py lines 138-151), carrying the
unrounded running totals (the roundings of lines 144-150 are presentation). -/
structure Snapshot where
  symbol : String
  hist_cagr : ℝ
  hist_yld : ℝ
  year_num : ℕ
  month : ℕ
  total_cost : ℝ
  total_shares : ℝ
  avg_cost : ℝ
  total_divs : ℝ
  current_price : ℝ
  total_asset : ℝ
  profit : ℝ

/-- A default snapshot, used only as the fallback of list indexing. -/
def snap0 : Snapshot :=
  { symbol := "", hist_cagr := 0, hist_yld := 0, year_num := 0, month := 0
  , total_cost := 0, total_shares := 0, avg_cost := 0, total_divs := 0
  , current_price := 0, total_asset := 0, profit := 0 }

/-- `monthly_growth` (app5.py line 89): geometric decomposition of the
annual growth rate. -/
def monthly_growth (metrics : HistMetrics) : ℝ :=
  (1 + metrics.cagr) ^ ((1 : ℝ) / 12) - 1

/-- `monthly_yield` (app5.py line 90): linear decomposition of the annual
yield rate. -/
def monthly_yield (metrics : HistMetrics) : ℝ :=
  metrics.yld / 12

/-- The state before the first month (app5.py lines 94-103). -/
def simInit (metrics : HistMetrics) (cfg : SimConfig) : SimState :=
  { current_price := metrics.current_price
  , total_shares :=
      if cfg.initial_fund > 0 then cfg.initial_fund / metrics.current_price
      else 0
  , total_cost := cfg.initial_fund
  , cash_wallet := 0
  , total_divs := 0 }

/-- The body of the monthly loop, app5.py lines 109-127. -/
def monthStep (metrics : HistMetrics) (cfg : SimConfig) (s : SimState) :
    SimState :=
  let current_price := s.current_price * (1 + monthly_growth metrics)
  let total_shares :=
    if cfg.monthly_amt > 0 then s.total_shares + cfg.monthly_amt / current_price
    else s.total_shares
  let total_cost :=
    if cfg.monthly_amt > 0 then s.total_cost + cfg.monthly_amt
    else s.total_cost
  let div_amt := total_shares * current_price * monthly_yield metrics
  { current_price := current_price
  , total_shares :=
      if cfg.is_reinvest then total_shares + div_amt / current_price
      else total_shares
  , total_cost := total_cost
  , cash_wallet :=
      if cfg.is_reinvest then s.cash_wallet else s.cash_wallet + div_amt
  , total_divs := s.total_divs + div_amt }

/-- The row built for month `m` from the state after that month's update,
app5.py lines 129-151. -/
def mkSnap (metrics : HistMetrics) (m : ℕ) (s : SimState) : Snapshot :=
  { symbol := metrics.symbol
  , hist_cagr := metrics.cagr
  , hist_yld := metrics.yld
  , year_num := (m - 1) / 12 + 1
  , month := m
  , total_cost := s.total_cost
  , total_shares := s.total_shares
  , avg_cost :=
      if s.total_shares > 0 then s.total_cost / s.total_shares else 0
  , total_divs := s.total_divs
  , current_price := s.current_price
  , total_asset := s.total_shares * s.current_price + s.cash_wallet
  , profit := s.total_shares * s.current_price + s.cash_wallet - s.total_cost }

/-- The loop `for m in range(1, months + 1)` (app5.py lines 105-151),
started at month `m` with `k` months to go. -/
def runFrom (metrics : HistMetrics) (cfg : SimConfig) :
    ℕ → ℕ → SimState → List Snapshot
  | _, 0, _ => []
  | m, k + 1, s =>
    let s' := monthStep metrics cfg s
    mkSnap metrics m s' :: runFrom metrics cfg (m + 1) k s'

/-- `calculate_projection` (app5.py lines 87-153). -/
def calculate_projection (metrics : HistMetrics) (cfg : SimConfig) :
    List Snapshot :=
  runFrom metrics cfg 1 (cfg.years * 12) (simInit metrics cfg)

/-- The simulation state after `k` completed months. -/
def stateAfter (metrics : HistMetrics) (cfg : SimConfig) (k : ℕ) : SimState :=
  (monthStep metrics cfg)^[k] (simInit metrics cfg)

/-- The PK conclusion of app5.py lines 221-225: the signed difference of the
two final asset values and the ticker announced as the winner. -/
def pk_result (t1 t2 : String) (final1 final2 : Snapshot) : String × ℝ :=
  let diff := final1.total_asset - final2.total_asset
  if diff > 0 then (t1, |diff|) else (t2, |diff|)

/-- The sidebar inputs (app5.py lines 17-38). -/
structure UIInput where
  ticker1 : String
  initial_lump_sum : ℝ
  monthly_invest : ℝ
  future_years : ℕ
  reinvest : Bool

/-- The sidebar warning condition of app5.py line 31 (a warning only; it
does not stop the run). -/
def sidebar_warning (inp : UIInput) : Prop :=
  inp.initial_lump_sum = 0 ∧ inp.monthly_invest = 0

/-- The single-instrument part of the main block (app5.py lines 156-166):
extract, and on success always project. -/
def main_run (inp : UIInput)
    (fetched : Except String (List (HDate × ℝ) × List (HDate × ℝ))) :
    Option (List Snapshot) × Option String :=
  match get_historical_metrics inp.ticker1 fetched with
  | (some m, _) =>
    (some (calculate_projection m
      ⟨inp.initial_lump_sum, inp.monthly_invest, inp.future_years,
        inp.reinvest⟩), none)
  | (none, e) => (none, e)

/-! ### Helper lemmas -/

lemma list_getD_eq_get? {α : Type} (l : List α) (n : ℕ) (d : α) :
    l.getD n d = (l.get? n).getD d := by
  induction l generalizing n with
  | nil => cases n <;> rfl
  | cons a t ih => cases n with
    | zero => rfl
    | succ k => simp [List.getD]

lemma runFrom_length (M : HistMetrics) (C : SimConfig) :
    ∀ (k m : ℕ) (s : SimState), (runFrom M C m k s).length = k := by
  intro k
  induction k with
  | zero => intro m s; rfl
  | succ k ih => intro m s; simp [runFrom, ih]

lemma runFrom_get? (M : HistMetrics) (C : SimConfig) :
    ∀ (k i m : ℕ) (s : SimState), i < k →
      (runFrom M C m k s).get? i =
        some (mkSnap M (m + i) ((monthStep M C)^[i + 1] s)) := by
  intro k
  induction k with
  | zero => intro i m s hi; omega
  | succ k ih =>
    intro i m s hi
    cases i with
    | zero => simp [runFrom]
    | succ j =>
      have hj : j < k := by omega
      simp only [runFrom, List.get?]
      rw [ih j (m + 1) (monthStep M C s) hj]
      have hm : m + 1 + j = m + (j + 1) := by omega
      have hs : (monthStep M C)^[j + 1] (monthStep M C s) =
          (monthStep M C)^[j + 1 + 1] s :=
        (Function.iterate_succ_apply (monthStep M C) (j + 1) s).symm
      rw [hm, hs]

lemma proj_length (M : HistMetrics) (C : SimConfig) :
    (calculate_projection M C).length = C.years * 12 :=
  runFrom_length M C (C.years * 12) 1 (simInit M C)

lemma proj_get? (M : HistMetrics) (C : SimConfig) {i : ℕ}
    (hi : i < C.years * 12) :
    (calculate_projection M C).get? i =
      some (mkSnap M (i + 1) (stateAfter M C (i + 1))) := by
  unfold calculate_projection stateAfter
  rw [runFrom_get? M C (C.years * 12) i 1 (simInit M C) hi]
  congr 2
  omega

lemma proj_getD (M : HistMetrics) (C : SimConfig) {i : ℕ}
    (hi : i < C.years * 12) :
    (calculate_projection M C).getD i snap0 =
      mkSnap M (i + 1) (stateAfter M C (i + 1)) := by
  rw [list_getD_eq_get?, proj_get? M C hi]
  rfl

lemma rpow_inv12_nonneg (x : ℝ) : 0 ≤ x ^ ((1 : ℝ) / 12) := by
  rcases lt_trichotomy x 0 with hx | hx | hx
  · rw [Real.rpow_def_of_neg hx]
    have hπ := Real.pi_pos
    have hcos : 0 < Real.cos ((1 : ℝ) / 12 * Real.pi) := by
      apply Real.cos_pos_of_mem_Ioo
      constructor <;> [linarith; linarith]
    positivity
  · rw [hx, Real.zero_rpow (by norm_num : ((1 : ℝ) / 12) ≠ 0)]
  · exact (Real.rpow_pos_of_pos hx _).le

lemma one_add_monthly_growth (M : HistMetrics) :
    1 + monthly_growth M = (1 + M.cagr) ^ ((1 : ℝ) / 12) := by
  unfold monthly_growth; ring

lemma one_add_mg_nonneg (M : HistMetrics) : 0 ≤ 1 + monthly_growth M := by
  rw [one_add_monthly_growth]; exact rpow_inv12_nonneg _

lemma one_add_mg_pos (M : HistMetrics) (h : -1 < M.cagr) :
    0 < 1 + monthly_growth M := by
  rw [one_add_monthly_growth]
  exact Real.rpow_pos_of_pos (by linarith) _

lemma one_add_mg_ge_one (M : HistMetrics) (h : 0 ≤ M.cagr) :
    1 ≤ 1 + monthly_growth M := by
  rw [one_add_monthly_growth]
  exact Real.one_le_rpow (by linarith) (by norm_num)

lemma step_price (M : HistMetrics) (C : SimConfig) (s : SimState) :
    (monthStep M C s).current_price =
      s.current_price * (1 + monthly_growth M) := rfl

lemma step_cost (M : HistMetrics) (C : SimConfig) (s : SimState) :
    (monthStep M C s).total_cost =
      if C.monthly_amt > 0 then s.total_cost + C.monthly_amt
      else s.total_cost := rfl

lemma step_shares (M : HistMetrics) (C : SimConfig) (s : SimState) :
    (monthStep M C s).total_shares =
      (let p := s.current_price * (1 + monthly_growth M)
       let b := if C.monthly_amt > 0 then s.total_shares + C.monthly_amt / p
                else s.total_shares
       if C.is_reinvest then b + b * p * monthly_yield M / p else b) := rfl

lemma step_cash (M : HistMetrics) (C : SimConfig) (s : SimState) :
    (monthStep M C s).cash_wallet =
      (let p := s.current_price * (1 + monthly_growth M)
       let b := if C.monthly_amt > 0 then s.total_shares + C.monthly_amt / p
                else s.total_shares
       if C.is_reinvest then s.cash_wallet
       else s.cash_wallet + b * p * monthly_yield M) := rfl

lemma step_divs (M : HistMetrics) (C : SimConfig) (s : SimState) :
    (monthStep M C s).total_divs =
      (let p := s.current_price * (1 + monthly_growth M)
       let b := if C.monthly_amt > 0 then s.total_shares + C.monthly_amt / p
                else s.total_shares
       s.total_divs + b * p * monthly_yield M) := rfl

/-- States with all sign-relevant components non-negative. -/
def GoodState (s : SimState) : Prop :=
  0 ≤ s.current_price ∧ 0 ≤ s.total_shares ∧ 0 ≤ s.cash_wallet ∧
    0 ≤ s.total_divs

lemma simInit_good (M : HistMetrics) (C : SimConfig)
    (hp : 0 ≤ M.current_price) (hi : 0 ≤ C.initial_fund) :
    GoodState (simInit M C) := by
  refine ⟨hp, ?_, le_rfl, le_rfl⟩
  simp only [simInit]
  split_ifs with h
  · exact div_nonneg hi hp
  · exact le_rfl

lemma monthStep_good (M : HistMetrics) (C : SimConfig)
    (hy : 0 ≤ M.yld) (hc : 0 ≤ C.monthly_amt)
    {s : SimState} (hs : GoodState s) :
    GoodState (monthStep M C s) ∧
    s.total_cost ≤ (monthStep M C s).total_cost ∧
    s.total_shares ≤ (monthStep M C s).total_shares ∧
    s.total_divs ≤ (monthStep M C s).total_divs := by
  obtain ⟨hp, hsh, hw, hd⟩ := hs
  have hgp : 0 ≤ 1 + monthly_growth M := one_add_mg_nonneg M
  have hp' : 0 ≤ s.current_price * (1 + monthly_growth M) := mul_nonneg hp hgp
  have hmy : 0 ≤ monthly_yield M := div_nonneg hy (by norm_num)
  have h1 : 0 ≤ C.monthly_amt / (s.current_price * (1 + monthly_growth M)) :=
    div_nonneg hc hp'
  have h2 : 0 ≤ s.total_shares +
      C.monthly_amt / (s.current_price * (1 + monthly_growth M)) :=
    add_nonneg hsh h1
  have h3 : 0 ≤ (s.total_shares +
      C.monthly_amt / (s.current_price * (1 + monthly_growth M))) *
      (s.current_price * (1 + monthly_growth M)) * monthly_yield M :=
    mul_nonneg (mul_nonneg h2 hp') hmy
  have h4 : 0 ≤ s.total_shares * (s.current_price * (1 + monthly_growth M)) *
      monthly_yield M :=
    mul_nonneg (mul_nonneg hsh hp') hmy
  have h5 : 0 ≤ (s.total_shares +
      C.monthly_amt / (s.current_price * (1 + monthly_growth M))) *
      (s.current_price * (1 + monthly_growth M)) * monthly_yield M /
      (s.current_price * (1 + monthly_growth M)) :=
    div_nonneg h3 hp'
  have h6 : 0 ≤ s.total_shares * (s.current_price * (1 + monthly_growth M)) *
      monthly_yield M / (s.current_price * (1 + monthly_growth M)) :=
    div_nonneg h4 hp'
  simp only [GoodState, step_price, step_shares, step_cost, step_cash,
    step_divs]
  by_cases hm : C.monthly_amt > 0 <;> by_cases hre : C.is_reinvest = true <;>
    simp only [hm, hre, if_true, if_false, ite_true, ite_false,
      Bool.false_eq_true] <;>
    refine ⟨⟨hp', ?_, ?_, ?_⟩, ?_, ?_, ?_⟩ <;> linarith

lemma stateAfter_succ (M : HistMetrics) (C : SimConfig) (k : ℕ) :
    stateAfter M C (k + 1) = monthStep M C (stateAfter M C k) :=
  Function.iterate_succ_apply' (monthStep M C) k (simInit M C)

lemma stateAfter_good (M : HistMetrics) (C : SimConfig)
    (hy : 0 ≤ M.yld) (hc : 0 ≤ C.monthly_amt)
    (hp : 0 ≤ M.current_price) (hi : 0 ≤ C.initial_fund) :
    ∀ k, GoodState (stateAfter M C k) := by
  intro k
  induction k with
  | zero => exact simInit_good M C hp hi
  | succ k ih =>
    rw [stateAfter_succ]
    exact (monthStep_good M C hy hc ih).1

lemma stateAfter_mono (M : HistMetrics) (C : SimConfig)
    (hy : 0 ≤ M.yld) (hc : 0 ≤ C.monthly_amt)
    (hp : 0 ≤ M.current_price) (hi : 0 ≤ C.initial_fund) :
    ∀ i j, i ≤ j →
      (stateAfter M C i).total_cost ≤ (stateAfter M C j).total_cost ∧
      (stateAfter M C i).total_shares ≤ (stateAfter M C j).total_shares ∧
      (stateAfter M C i).total_divs ≤ (stateAfter M C j).total_divs := by
  intro i j hij
  induction j, hij using Nat.le_induction with
  | base => exact ⟨le_rfl, le_rfl, le_rfl⟩
  | succ j hij ih =>
    have hg := monthStep_good M C hy hc (stateAfter_good M C hy hc hp hi j)
    rw [stateAfter_succ]
    exact ⟨ih.1.trans hg.2.1, ih.2.1.trans hg.2.2.1, ih.2.2.trans hg.2.2.2⟩

lemma stateAfter_price (M : HistMetrics) (C : SimConfig) :
    ∀ k, (stateAfter M C k).current_price =
      M.current_price * (1 + monthly_growth M) ^ k := by
  intro k
  induction k with
  | zero => simp [stateAfter, simInit]
  | succ k ih => rw [stateAfter_succ, step_price, ih]; ring

/-! ### Claim theorems -/

/-- Claim C5: the Simulator decomposes the annual growth rate geometrically,
`monthly_growth = (1 + annualized_growth_rate) ^ (1/12) - 1`, and the annual
yield linearly, `monthly_yield = annualized_yield_rate / 12`, for every
metrics input; the geometric rate is exactly the factor the simulation step
applies to the price each month. -/
theorem C5_monthly_decomposition (M : HistMetrics) :
    monthly_growth M = (1 + M.cagr) ^ ((1 : ℝ) / 12) - 1 ∧
    monthly_yield M = M.yld / 12 ∧
    ∀ (C : SimConfig) (s : SimState),
      (monthStep M C s).current_price =
        s.current_price * (1 + M.cagr) ^ ((1 : ℝ) / 12) := by
  refine ⟨rfl, rfl, fun C s => ?_⟩
  rw [step_price, ← one_add_monthly_growth]

/-- Claim C10: the extraction is total over its input — it returns either
(metrics, no error) or (no metrics, message) and never raises; an empty
price history yields a not-found message naming the symbol, and an
exception raised during fetch is returned as (none, its own message). -/
theorem C10_extraction_total (sym : String)
    (fetched : Except String (List (HDate × ℝ) × List (HDate × ℝ))) :
    (((get_historical_metrics sym fetched).1.isSome ∧
        (get_historical_metrics sym fetched).2 = none) ∨
      ((get_historical_metrics sym fetched).1 = none ∧
        (get_historical_metrics sym fetched).2.isSome)) ∧
    (∀ e, fetched = .error e →
      get_historical_metrics sym fetched = (none, some e)) ∧
    (∀ divs, fetched = .ok ([], divs) →
      get_historical_metrics sym fetched =
        (none, some ("找不到 " ++ sym ++ " 的資料")) ∧
      ∃ pre post,
        (get_historical_metrics sym fetched).2 = some (pre ++ sym ++ post)) ∧
    (∀ p hist divs, fetched = .ok (p :: hist, divs) →
      (get_historical_metrics sym fetched).2 = none ∧
      (get_historical_metrics sym fetched).1.isSome) := by
  rcases fetched with e | ⟨hist, divs⟩
  · refine ⟨Or.inr ⟨rfl, rfl⟩, ?_, ?_, ?_⟩
    · intro e' he
      injection he with h
      subst h
      rfl
    · intro divs' h
      exact absurd h (by simp)
    · intro p hist divs' h
      exact absurd h (by simp)
  · cases hist with
    | nil =>
      refine ⟨Or.inr ⟨rfl, rfl⟩, ?_, ?_, ?_⟩
      · intro e he
        exact absurd he (by simp)
      · intro divs' h
        exact ⟨rfl, "找不到 ", " 的資料", rfl⟩
      · intro p hist divs' h
        have : ([] : List (HDate × ℝ)) = p :: hist := by
          injection h with h1
          exact congrArg Prod.fst h1
        exact absurd this (by simp)
    | cons p rest =>
      refine ⟨Or.inl ⟨rfl, rfl⟩, ?_, ?_, ?_⟩
      · intro e he
        exact absurd he (by simp)
      · intro divs' h
        have : (p :: rest : List (HDate × ℝ)) = [] := by
          injection h with h1
          exact congrArg Prod.fst h1
        exact absurd this (by simp)
      · intro q hist' divs' h
        exact ⟨rfl, rfl⟩

/-- Witness for C10 at a concrete failed fetch: the exception message is
passed through verbatim. -/
theorem C10_witness :
    get_historical_metrics "X" (.error "boom") = (none, some "boom") :=
  (C10_extraction_total "X" (.error "boom")).2.1 "boom" rfl

/-- Claim C2 counterexample: a concrete series whose latest close is 0 is
not rejected — the Extractor returns metrics (error component is `none`)
whose current_price is 0, so no `InvalidPriceError` rejection exists. -/
theorem C2_counterexample :
    (get_historical_metrics "0050.TW"
        (.ok ([(⟨0, 2020⟩, 100), (⟨3652, 2030⟩, 0)], []))).2 = none ∧
    Option.map (fun m => m.current_price)
      (get_historical_metrics "0050.TW"
        (.ok ([(⟨0, 2020⟩, 100), (⟨3652, 2030⟩, 0)], []))).1 = some 0 :=
  ⟨rfl, rfl⟩

/-- Claim C2 amended: the Extractor performs no price validation — for every
non-empty series it returns metrics and no error, with latest_price equal to
the series' last close even when that close is zero or negative, so the
strictly-positive start of the Simulator is not guaranteed by it. -/
theorem C2_no_price_validation (sym : String) (p : HDate × ℝ)
    (hist divs : List (HDate × ℝ)) (hle : (lastP (p :: hist)).2 ≤ 0) :
    (get_historical_metrics sym (.ok (p :: hist, divs))).2 = none ∧
    ∃ m, (get_historical_metrics sym (.ok (p :: hist, divs))).1 = some m ∧
      m.current_price = (lastP (p :: hist)).2 ∧ m.current_price ≤ 0 :=
  ⟨rfl, _, rfl, rfl, hle⟩

/-- Witness for C2's amended theorem at the concrete zero-price series. -/
theorem C2_witness :
    (lastP [((⟨0, 2020⟩ : HDate), (100 : ℝ)), (⟨3652, 2030⟩, 0)]).2 ≤ 0 ∧
    (get_historical_metrics "0056.TW"
        (.ok ([(⟨0, 2020⟩, 100), (⟨3652, 2030⟩, 0)], []))).2 = none :=
  ⟨le_of_eq rfl,
    (C2_no_price_validation "0056.TW" (⟨0, 2020⟩, 100) [(⟨3652, 2030⟩, 0)] []
      (le_of_eq rfl)).1⟩

/-- Claim C8 counterexample: at a concrete one-point series the Extractor
succeeds, yet the returned dictionary carries exactly the keys of app5.py
lines 77-81 — there is no is_short_history field. -/
theorem C8_counterexample :
    (get_historical_metrics "0050.TW"
        (.ok ([(⟨0, 2020⟩, 50)], []))).1.isSome ∧
    "is_short_history" ∉ metricsKeys :=
  ⟨rfl, by decide⟩

/-- Claim C8 amended: the returned metrics has no is_short_history field; it
carries years_data (the clamped span), and a span shorter than one year is
exactly the condition years_data < 1 — also when the 0.01 clamp fires. -/
theorem C8_short_history_derivable (sym : String) (p : HDate × ℝ)
    (hist divs : List (HDate × ℝ)) :
    ∃ m, (get_historical_metrics sym (.ok (p :: hist, divs))).1 = some m ∧
      m.years_data = years_past (p :: hist) ∧
      (m.years_data < 1 ↔ rawYears (p :: hist) < 1) ∧
      "is_short_history" ∉ metricsKeys := by
  refine ⟨_, rfl, rfl, ?_, by decide⟩
  unfold years_past
  split_ifs with h
  · constructor
    · intro _
      linarith
    · intro _
      norm_num
  · exact Iff.rfl

/-- Claim C1 counterexample: with the two final asset values exactly equal
(the same projection fed twice), the PK block does not report a tie — it
announces ticker B as the winner. -/
theorem C1_counterexample :
    (pk_result "0050.TW" "0056.TW"
      ((calculate_projection ⟨"0050.TW", 0, 0, 50, 1⟩
          ⟨100, 0, 1, true⟩).getLastD snap0)
      ((calculate_projection ⟨"0050.TW", 0, 0, 50, 1⟩
          ⟨100, 0, 1, true⟩).getLastD snap0)).1 = "0056.TW" := by
  unfold pk_result
  simp

/-- Claim C1 amended: difference = finalA.total_asset − finalB.total_asset;
A is announced the winner exactly when the difference is strictly positive;
otherwise — an exact tie included — B is announced; the displayed margin is
the absolute difference.  There is no tie outcome. -/
theorem C1_pk_semantics (t1 t2 : String) (f1 f2 : Snapshot) :
    (pk_result t1 t2 f1 f2).2 = |f1.total_asset - f2.total_asset| ∧
    (f2.total_asset < f1.total_asset → (pk_result t1 t2 f1 f2).1 = t1) ∧
    (f1.total_asset ≤ f2.total_asset → (pk_result t1 t2 f1 f2).1 = t2) := by
  simp only [pk_result]
  refine ⟨?_, ?_, ?_⟩
  · split_ifs <;> rfl
  · intro h
    rw [if_pos (by linarith : f1.total_asset - f2.total_asset > 0)]
  · intro h
    rw [if_neg (by linarith : ¬f1.total_asset - f2.total_asset > 0)]

/-- Witness for C1's amended theorem: a strictly richer A is announced. -/
theorem C1_witness :
    (pk_result "A" "B" { snap0 with total_asset := 2 }
      { snap0 with total_asset := 1 }).1 = "A" :=
  (C1_pk_semantics "A" "B" _ _).2.1 (show (1 : ℝ) < 2 by norm_num)

/-- Claim C3 counterexample: with both funds zero the sidebar only warns and
the main block still enters the Simulator — a full 12-month trajectory is
produced and no configuration error of any kind is reported. -/
theorem C3_counterexample :
    sidebar_warning ⟨"0050.TW", 0, 0, 1, true⟩ ∧
    (main_run ⟨"0050.TW", 0, 0, 1, true⟩
        (.ok ([(⟨0, 2020⟩, 50)], []))).2 = none ∧
    ((main_run ⟨"0050.TW", 0, 0, 1, true⟩
        (.ok ([(⟨0, 2020⟩, 50)], []))).1.getD []).length = 12 := by
  refine ⟨⟨rfl, rfl⟩, rfl, ?_⟩
  rw [show (main_run ⟨"0050.TW", 0, 0, 1, true⟩
        (.ok ([(⟨0, 2020⟩, 50)], []))).1.getD [] =
      calculate_projection
        ⟨"0050.TW", price_cagr [(⟨0, 2020⟩, 50)],
          extractYield [(⟨0, 2020⟩, 50)] [], 50,
          years_past [(⟨0, 2020⟩, 50)]⟩ ⟨0, 0, 1, true⟩ from rfl,
    proj_length]
  rfl

/-- Claim C3 amended: the zero-zero configuration is only warned about; the
Simulator still runs over the full horizon and produces an all-zero
trajectory — every snapshot has zero cost, shares, dividends, asset value
and (because the division is guarded by total_shares > 0) zero average
cost. -/
theorem C3_zero_zero_runs (M : HistMetrics) (C : SimConfig)
    (hi : C.initial_fund = 0) (hm : C.monthly_amt = 0) :
    ∀ i, i < C.years * 12 →
      ((calculate_projection M C).getD i snap0).total_cost = 0 ∧
      ((calculate_projection M C).getD i snap0).total_shares = 0 ∧
      ((calculate_projection M C).getD i snap0).total_divs = 0 ∧
      ((calculate_projection M C).getD i snap0).total_asset = 0 ∧
      ((calculate_projection M C).getD i snap0).avg_cost = 0 := by
  have hz : ∀ k, (stateAfter M C k).total_shares = 0 ∧
      (stateAfter M C k).total_cost = 0 ∧
      (stateAfter M C k).cash_wallet = 0 ∧
      (stateAfter M C k).total_divs = 0 := by
    intro k
    induction k with
    | zero => simp [stateAfter, simInit, hi]
    | succ k ih =>
      obtain ⟨h1, h2, h3, h4⟩ := ih
      rw [stateAfter_succ]
      simp [monthStep, hm, h1, h2, h3, h4]
  intro i hilt
  rw [proj_getD M C hilt]
  obtain ⟨h1, h2, h3, h4⟩ := hz (i + 1)
  simp [mkSnap, h1, h2, h3, h4]

/-- Witness for C3's amended theorem at a concrete metrics and the
zero-zero configuration. -/
theorem C3_witness :
    (0 : ℝ) = 0 ∧ (0 : ℕ) < 12 ∧
    ((calculate_projection ⟨"W3", 0, 0, 50, 1⟩ ⟨0, 0, 1, true⟩).getD 0
        snap0).total_asset = 0 :=
  ⟨rfl, by norm_num,
    (C3_zero_zero_runs ⟨"W3", 0, 0, 50, 1⟩ ⟨0, 0, 1, true⟩ rfl rfl 0
      (show (0 : ℕ) < 1 * 12 by norm_num)).2.2.2.1⟩

/-- Claim C4: across the produced sequence, total_cost, total_shares and
total_distributions are non-decreasing month over month, and the month
indices are exactly 1..horizon_years*12 in order — stated for every metrics
and config satisfying the data model's sign constraints (non-negative
latest price, yield, lump sum and monthly contribution). -/
theorem C4_monotone_and_indices (M : HistMetrics) (C : SimConfig)
    (hp : 0 ≤ M.current_price) (hy : 0 ≤ M.yld)
    (hi : 0 ≤ C.initial_fund) (hc : 0 ≤ C.monthly_amt) :
    (calculate_projection M C).length = C.years * 12 ∧
    (∀ i, i < C.years * 12 →
      ((calculate_projection M C).getD i snap0).month = i + 1) ∧
    (∀ i j, i ≤ j → j < C.years * 12 →
      ((calculate_projection M C).getD i snap0).total_cost ≤
        ((calculate_projection M C).getD j snap0).total_cost ∧
      ((calculate_projection M C).getD i snap0).total_shares ≤
        ((calculate_projection M C).getD j snap0).total_shares ∧
      ((calculate_projection M C).getD i snap0).total_divs ≤
        ((calculate_projection M C).getD j snap0).total_divs) := by
  refine ⟨proj_length M C, ?_, ?_⟩
  · intro i hilt
    rw [proj_getD M C hilt]
    rfl
  · intro i j hij hj
    have hi' : i < C.years * 12 := by omega
    rw [proj_getD M C hi', proj_getD M C hj]
    simp only [mkSnap]
    exact stateAfter_mono M C hy hc hp hi (i + 1) (j + 1) (by omega)

/-- Witness for C4 at a concrete metrics/config and the month pair 0, 1. -/
theorem C4_witness :
    (0 : ℝ) ≤ 100 ∧
    ((calculate_projection ⟨"W4", 0, 0, 100, 1⟩ ⟨100, 10, 1, true⟩).getD 0
        snap0).total_cost ≤
      ((calculate_projection ⟨"W4", 0, 0, 100, 1⟩ ⟨100, 10, 1, true⟩).getD 1
        snap0).total_cost :=
  ⟨by norm_num,
    ((C4_monotone_and_indices ⟨"W4", 0, 0, 100, 1⟩ ⟨100, 10, 1, true⟩
        (show (0 : ℝ) ≤ 100 by norm_num) (show (0 : ℝ) ≤ 0 by norm_num)
        (show (0 : ℝ) ≤ 100 by norm_num) (show (0 : ℝ) ≤ 10 by norm_num)).2.2
      0 1 (by norm_num) (show (1 : ℕ) < 1 * 12 by norm_num)).1⟩

/-- Modelled from the spec's words (claim C7): the mean over the calendar
years present in both the yearly-summed distributions and the
yearly-averaged prices of (year's total distributions / year's average
price). -/
def specYearlyYield (hist divs : List (HDate × ℝ)) : ℝ :=
  (∑ y ∈ commonYears hist divs, yearSum divs y / yearMean hist y) /
    ((commonYears hist divs).card : ℝ)

/-- Modelled from the spec's words (claim C7): the aggregate fallback
(sum of all distributions / mean of all prices) × (1 / years_past). -/
def specFallbackYield (hist divs : List (HDate × ℝ)) : ℝ :=
  divTotal divs / priceMeanAll hist * (1 / years_past hist)

/-- Claim C7: for a non-empty distribution series the annualized yield is
the mean over the common calendar years of (year's total distributions /
year's average price); with an empty intersection it is the aggregate
fallback; with no distributions it is 0.  Stated for price series whose
yearly resampling has an observation in every spanned year (otherwise
pandas inserts NaN rows that its mean then skips). -/
theorem C7_yield_cases (sym : String) (p : HDate × ℝ)
    (hist divs : List (HDate × ℝ))
    (hcov : ∀ y ∈ priceYearsRange (p :: hist), 0 < yearCount (p :: hist) y) :
    ∃ m, (get_historical_metrics sym (.ok (p :: hist, divs))).1 = some m ∧
      (divs = [] → m.yld = 0) ∧
      (divs ≠ [] → (commonYears (p :: hist) divs).Nonempty →
        m.yld = specYearlyYield (p :: hist) divs) ∧
      (divs ≠ [] → commonYears (p :: hist) divs = ∅ →
        m.yld = specFallbackYield (p :: hist) divs) := by
  refine ⟨_, rfl, ?_, ?_, ?_⟩
  · intro h
    subst h
    rfl
  · intro hne hcom
    have hval : validCommon (p :: hist) divs = commonYears (p :: hist) divs := by
      apply Finset.filter_true_of_mem
      intro y hy
      exact hcov y (Finset.mem_of_mem_inter_right hy)
    cases divs with
    | nil => exact absurd rfl hne
    | cons d ds =>
      show extractYield (p :: hist) (d :: ds) = _
      simp only [extractYield]
      rw [if_pos (Finset.card_pos.mpr hcom), hval]
      rfl
  · intro hne hcom
    cases divs with
    | nil => exact absurd rfl hne
    | cons d ds =>
      show extractYield (p :: hist) (d :: ds) = _
      simp only [extractYield]
      have hz : ¬ 0 < (commonYears (p :: hist) (d :: ds)).card := by
        rw [hcom]
        simp
      rw [if_neg hz]
      rfl

/-- Witness for C7 at a concrete two-year price series with one recorded
distribution: the yearly-intersection branch applies. -/
theorem C7_witness :
    ∃ m, (get_historical_metrics "W7"
        (.ok ([(⟨0, 2020⟩, 100), (⟨400, 2021⟩, 200)],
          [(⟨10, 2020⟩, 5)]))).1 = some m ∧
      m.yld = specYearlyYield [(⟨0, 2020⟩, 100), (⟨400, 2021⟩, 200)]
        [(⟨10, 2020⟩, 5)] := by
  obtain ⟨m, hm, _, hy, _⟩ := C7_yield_cases "W7" (⟨0, 2020⟩, 100)
    [(⟨400, 2021⟩, 200)] [(⟨10, 2020⟩, 5)] (by decide)
  exact ⟨m, hm, hy (by simp) ⟨2020, by decide⟩⟩

/-- Claim C6: for latest_price 100, growth 0.10, yield 0.02, lump sum 0,
monthly contribution 1000, horizon 1 year, reinvestment on, the month-1
snapshot has current_price ≈ 100.797, shares bought
(1000 / current_price) ≈ 9.921, total_cost exactly 1000, and a strictly
positive distribution amount converted to additional shares. -/
theorem C6_concrete_scenario :
    ∃ snap, (calculate_projection ⟨"0050.TW", 0.10, 0.02, 100, 10⟩
        ⟨0, 1000, 1, true⟩).get? 0 = some snap ∧
      |snap.current_price - 100.797| < 0.001 ∧
      |1000 / snap.current_price - 9.921| < 0.001 ∧
      snap.total_cost = 1000 ∧
      0 < snap.total_divs ∧
      snap.total_shares =
        1000 / snap.current_price + snap.total_divs / snap.current_price := by
  set x : ℝ := (1.1 : ℝ) ^ ((1 : ℝ) / 12) with hxdef
  have hx_pos : (0 : ℝ) < x := Real.rpow_pos_of_pos (by norm_num) _
  have hx0 : x ≠ 0 := ne_of_gt hx_pos
  have hx_pow : x ^ (12 : ℕ) = 1.1 := by
    rw [hxdef, ← Real.rpow_natCast ((1.1 : ℝ) ^ ((1 : ℝ) / 12)) 12,
      ← Real.rpow_mul (by norm_num : (0 : ℝ) ≤ 1.1)]
    norm_num
  have hub : x < 1.00798 := by
    by_contra hle
    push_neg at hle
    have h := pow_le_pow_left₀ (by norm_num : (0 : ℝ) ≤ 1.00798) hle 12
    rw [hx_pow] at h
    norm_num at h
  have hlb : (1.00796 : ℝ) < x := by
    by_contra hle
    push_neg at hle
    have h := pow_le_pow_left₀ (le_of_lt hx_pos) hle 12
    rw [hx_pow] at h
    norm_num at h
  have hmg : 1 + monthly_growth ⟨"0050.TW", 0.10, 0.02, 100, 10⟩ = x := by
    rw [one_add_monthly_growth, hxdef]
    norm_num
  have hstate1 : stateAfter ⟨"0050.TW", 0.10, 0.02, 100, 10⟩ ⟨0, 1000, 1, true⟩ 1 =
      monthStep ⟨"0050.TW", 0.10, 0.02, 100, 10⟩ ⟨0, 1000, 1, true⟩
        (simInit ⟨"0050.TW", 0.10, 0.02, 100, 10⟩ ⟨0, 1000, 1, true⟩) := by
    unfold stateAfter
    rw [Function.iterate_one]
  have hprice : (stateAfter ⟨"0050.TW", 0.10, 0.02, 100, 10⟩
      ⟨0, 1000, 1, true⟩ 1).current_price = 100 * x := by
    rw [hstate1, step_price, hmg]
    norm_num [simInit]
  have hcost : (stateAfter ⟨"0050.TW", 0.10, 0.02, 100, 10⟩
      ⟨0, 1000, 1, true⟩ 1).total_cost = 1000 := by
    rw [hstate1, step_cost]
    norm_num [simInit]
  have hdivs : (stateAfter ⟨"0050.TW", 0.10, 0.02, 100, 10⟩
      ⟨0, 1000, 1, true⟩ 1).total_divs = 1000 * (0.02 / 12) := by
    rw [hstate1, step_divs]
    simp only [simInit, monthly_yield, hmg]
    norm_num
    field_simp
    norm_num
  have hshares : (stateAfter ⟨"0050.TW", 0.10, 0.02, 100, 10⟩
      ⟨0, 1000, 1, true⟩ 1).total_shares =
      1000 / (100 * x) + 1000 * (0.02 / 12) / (100 * x) := by
    rw [hstate1, step_shares]
    simp only [simInit, monthly_yield, hmg]
    norm_num
    field_simp
    ring
  refine ⟨_, proj_get? ⟨"0050.TW", 0.10, 0.02, 100, 10⟩ ⟨0, 1000, 1, true⟩
    (show (0 : ℕ) < 1 * 12 by norm_num), ?_, ?_, ?_, ?_, ?_⟩ <;>
    simp only [mkSnap, Nat.zero_add]
  · rw [hprice, abs_lt]
    constructor <;> nlinarith [hlb, hub]
  · rw [hprice]
    have h9 : (1000 : ℝ) / (100 * x) = 10 / x := by
      field_simp
      ring
    have hup : 10 / x < 9.922 := by
      rw [div_lt_iff₀ hx_pos]
      nlinarith [hlb]
    have hdn : (9.920 : ℝ) < 10 / x := by
      rw [lt_div_iff₀ hx_pos]
      nlinarith [hub]
    rw [h9, abs_lt]
    constructor <;> linarith
  · exact hcost
  · rw [hdivs]
    norm_num
  · rw [hshares, hdivs, hprice]

/-! ### Helper lemmas for the reinvestment comparison -/

lemma step_shares_plain (M : HistMetrics) (init monthly : ℝ) (years : ℕ)
    (s : SimState) :
    (monthStep M ⟨init, monthly, years, false⟩ s).total_shares =
      s.total_shares + (if monthly > 0 then
        monthly / (s.current_price * (1 + monthly_growth M)) else 0) := by
  simp only [monthStep]
  norm_num
  split_ifs with h
  · rfl
  · simp

lemma step_cash_plain (M : HistMetrics) (init monthly : ℝ) (years : ℕ)
    (s : SimState) :
    (monthStep M ⟨init, monthly, years, false⟩ s).cash_wallet =
      s.cash_wallet +
        (s.total_shares + (if monthly > 0 then
          monthly / (s.current_price * (1 + monthly_growth M)) else 0)) *
          (s.current_price * (1 + monthly_growth M)) * monthly_yield M := by
  simp only [monthStep]
  norm_num
  split_ifs with h
  · rfl
  · simp

lemma step_cash_reinvest (M : HistMetrics) (init monthly : ℝ) (years : ℕ)
    (s : SimState) :
    (monthStep M ⟨init, monthly, years, true⟩ s).cash_wallet =
      s.cash_wallet := by
  simp only [monthStep]
  norm_num

lemma step_shares_reinvest_closed (M : HistMetrics) (init monthly : ℝ)
    (years : ℕ) (s : SimState)
    (hp : s.current_price * (1 + monthly_growth M) ≠ 0) :
    (monthStep M ⟨init, monthly, years, true⟩ s).total_shares =
      (s.total_shares + (if monthly > 0 then
        monthly / (s.current_price * (1 + monthly_growth M)) else 0)) *
        (1 + monthly_yield M) := by
  simp only [monthStep]
  norm_num
  split_ifs with h
  · field_simp
    ring
  · field_simp
    ring

lemma reinvest_cash_zero (M : HistMetrics) (init monthly : ℝ) (years : ℕ) :
    ∀ k, (stateAfter M ⟨init, monthly, years, true⟩ k).cash_wallet = 0 := by
  intro k
  induction k with
  | zero => rfl
  | succ k ih => rw [stateAfter_succ, step_cash_reinvest, ih]

lemma stateAfter_one (M : HistMetrics) (C : SimConfig) :
    stateAfter M C 1 = monthStep M C (simInit M C) := by
  unfold stateAfter
  rw [Function.iterate_one]

lemma stateAfter_price_pos (M : HistMetrics) (C : SimConfig)
    (hp : 0 < M.current_price) (hg : 0 < 1 + monthly_growth M) :
    ∀ k, 0 < (stateAfter M C k).current_price := by
  intro k
  rw [stateAfter_price]
  exact mul_pos hp (pow_pos hg k)

lemma reinvest_shares_dominance (M : HistMetrics) (init monthly : ℝ)
    (years : ℕ) (hp : 0 < M.current_price) (hy : 0 < M.yld)
    (hg : 0 < 1 + monthly_growth M) (hi : 0 ≤ init) (hc : 0 ≤ monthly)
    (hpos : 0 < init ∨ 0 < monthly) :
    ∀ k, 1 ≤ k →
      (stateAfter M ⟨init, monthly, years, false⟩ k).total_shares <
        (stateAfter M ⟨init, monthly, years, true⟩ k).total_shares := by
  have hy' : 0 < monthly_yield M := div_pos hy (by norm_num)
  have hppR : ∀ k,
      0 < (stateAfter M ⟨init, monthly, years, true⟩ k).current_price :=
    stateAfter_price_pos M _ hp hg
  have hppN : ∀ k,
      0 < (stateAfter M ⟨init, monthly, years, false⟩ k).current_price :=
    stateAfter_price_pos M _ hp hg
  have hpeq : ∀ k,
      (stateAfter M ⟨init, monthly, years, true⟩ k).current_price =
        (stateAfter M ⟨init, monthly, years, false⟩ k).current_price := by
    intro k
    rw [stateAfter_price, stateAfter_price]
  have hgoodN : ∀ k, GoodState (stateAfter M ⟨init, monthly, years, false⟩ k) :=
    stateAfter_good M _ hy.le hc hp.le hi
  intro k hk
  induction k, hk using Nat.le_induction with
  | base =>
    have hsim : simInit M ⟨init, monthly, years, true⟩ =
        simInit M ⟨init, monthly, years, false⟩ := rfl
    have hpinitpos : 0 <
        (simInit M ⟨init, monthly, years, false⟩).current_price *
          (1 + monthly_growth M) := mul_pos hp hg
    rw [stateAfter_one, stateAfter_one, hsim, step_shares_plain,
      step_shares_reinvest_closed M init monthly years _ (ne_of_gt hpinitpos)]
    have hb_pos : 0 <
        (simInit M ⟨init, monthly, years, false⟩).total_shares +
          (if monthly > 0 then monthly /
            ((simInit M ⟨init, monthly, years, false⟩).current_price *
              (1 + monthly_growth M)) else 0) := by
      have hs0 : (simInit M ⟨init, monthly, years, false⟩).total_shares =
          if init > 0 then init / M.current_price else 0 := rfl
      rcases hpos with h0 | h0
      · have hsp : 0 < (simInit M ⟨init, monthly, years, false⟩).total_shares := by
          rw [hs0, if_pos h0]
          exact div_pos h0 hp
        have he : 0 ≤ (if monthly > 0 then monthly /
            ((simInit M ⟨init, monthly, years, false⟩).current_price *
              (1 + monthly_growth M)) else 0) := by
          split_ifs with hm
          · exact div_nonneg hc hpinitpos.le
          · exact le_rfl
        linarith
      · have hsp : 0 ≤ (simInit M ⟨init, monthly, years, false⟩).total_shares := by
          rw [hs0]
          split_ifs with h1
          · exact (div_pos h1 hp).le
          · exact le_rfl
        have he : 0 < (if monthly > 0 then monthly /
            ((simInit M ⟨init, monthly, years, false⟩).current_price *
              (1 + monthly_growth M)) else 0) := by
          rw [if_pos h0]
          exact div_pos h0 hpinitpos
        linarith
    nlinarith [hb_pos, hy']
  | succ k hk ih =>
    have hneR : (stateAfter M ⟨init, monthly, years, true⟩ k).current_price *
        (1 + monthly_growth M) ≠ 0 := ne_of_gt (mul_pos (hppR k) hg)
    rw [stateAfter_succ, stateAfter_succ, step_shares_plain,
      step_shares_reinvest_closed M init monthly years _ hneR, hpeq k]
    have he : 0 ≤ (if monthly > 0 then monthly /
        ((stateAfter M ⟨init, monthly, years, false⟩ k).current_price *
          (1 + monthly_growth M)) else 0) := by
      split_ifs with hm
      · exact div_nonneg hc (mul_pos (hppN k) hg).le
      · exact le_rfl
    have hsN : 0 ≤ (stateAfter M ⟨init, monthly, years, false⟩ k).total_shares :=
      (hgoodN k).2.1
    nlinarith [ih, he, hsN, hy']

lemma reinvest_asset_invariant (M : HistMetrics) (init monthly : ℝ)
    (years : ℕ) (hp : 0 < M.current_price) (hy : 0 < M.yld)
    (hg1 : 1 ≤ 1 + monthly_growth M) (hi : 0 ≤ init) (hc : 0 ≤ monthly)
    (hpos : 0 < init ∨ 0 < monthly) :
    ∀ k, 1 ≤ k →
      0 ≤ ((stateAfter M ⟨init, monthly, years, true⟩ k).total_shares -
            (stateAfter M ⟨init, monthly, years, false⟩ k).total_shares) *
          (stateAfter M ⟨init, monthly, years, false⟩ k).current_price -
          (stateAfter M ⟨init, monthly, years, false⟩ k).cash_wallet ∧
      (2 ≤ k →
        0 < ((stateAfter M ⟨init, monthly, years, true⟩ k).total_shares -
              (stateAfter M ⟨init, monthly, years, false⟩ k).total_shares) *
            (stateAfter M ⟨init, monthly, years, false⟩ k).current_price -
            (stateAfter M ⟨init, monthly, years, false⟩ k).cash_wallet) := by
  have hg : 0 < 1 + monthly_growth M := lt_of_lt_of_le one_pos hg1
  have hy' : 0 < monthly_yield M := div_pos hy (by norm_num)
  have hppR : ∀ k,
      0 < (stateAfter M ⟨init, monthly, years, true⟩ k).current_price :=
    stateAfter_price_pos M _ hp hg
  have hppN : ∀ k,
      0 < (stateAfter M ⟨init, monthly, years, false⟩ k).current_price :=
    stateAfter_price_pos M _ hp hg
  have hpeq : ∀ k,
      (stateAfter M ⟨init, monthly, years, true⟩ k).current_price =
        (stateAfter M ⟨init, monthly, years, false⟩ k).current_price := by
    intro k
    rw [stateAfter_price, stateAfter_price]
  have hdom := reinvest_shares_dominance M init monthly years hp hy hg hi hc hpos
  have hgoodN : ∀ k, GoodState (stateAfter M ⟨init, monthly, years, false⟩ k) :=
    stateAfter_good M _ hy.le hc hp.le hi
  have hgy : 1 ≤ (1 + monthly_growth M) * (1 + monthly_yield M) := by
    nlinarith [hg1, hy'.le]
  intro k hk
  induction k, hk using Nat.le_induction with
  | base =>
    constructor
    · have hsim : simInit M ⟨init, monthly, years, true⟩ =
          simInit M ⟨init, monthly, years, false⟩ := rfl
      have hpinitpos : 0 <
          (simInit M ⟨init, monthly, years, false⟩).current_price *
            (1 + monthly_growth M) := mul_pos hp hg
      rw [stateAfter_one, stateAfter_one, hsim, step_shares_plain,
        step_shares_reinvest_closed M init monthly years _ (ne_of_gt hpinitpos),
        step_price, step_cash_plain]
      simp only [simInit]
      exact le_of_eq (by ring)
    · intro h2
      exact absurd h2 (by omega)
  | succ k hk ih =>
    have hneR : (stateAfter M ⟨init, monthly, years, true⟩ k).current_price *
        (1 + monthly_growth M) ≠ 0 := ne_of_gt (mul_pos (hppR k) hg)
    rw [stateAfter_succ, stateAfter_succ, step_shares_plain,
      step_shares_reinvest_closed M init monthly years _ hneR,
      step_price, step_cash_plain, hpeq k]
    have hD : 0 <
        ((stateAfter M ⟨init, monthly, years, true⟩ k).total_shares -
          (stateAfter M ⟨init, monthly, years, false⟩ k).total_shares) *
        (stateAfter M ⟨init, monthly, years, false⟩ k).current_price :=
      mul_pos (sub_pos.mpr (hdom k hk)) (hppN k)
    have hw : 0 ≤ (stateAfter M ⟨init, monthly, years, false⟩ k).cash_wallet :=
      (hgoodN k).2.2.1
    have hQk := ih.1
    have hmul := mul_le_mul_of_nonneg_left hgy hD.le
    have hDy := mul_pos hD hy'
    constructor
    · nlinarith [hmul, hQk]
    · intro h2
      nlinarith [hmul, hQk, hDy]

lemma reinvest_month1_asset_eq (M : HistMetrics) (init monthly : ℝ)
    (years : ℕ) (hp : 0 < M.current_price) (hg : 0 < 1 + monthly_growth M) :
    (stateAfter M ⟨init, monthly, years, true⟩ 1).total_shares *
        (stateAfter M ⟨init, monthly, years, true⟩ 1).current_price +
      (stateAfter M ⟨init, monthly, years, true⟩ 1).cash_wallet =
    (stateAfter M ⟨init, monthly, years, false⟩ 1).total_shares *
        (stateAfter M ⟨init, monthly, years, false⟩ 1).current_price +
      (stateAfter M ⟨init, monthly, years, false⟩ 1).cash_wallet := by
  have hsim : simInit M ⟨init, monthly, years, true⟩ =
      simInit M ⟨init, monthly, years, false⟩ := rfl
  have hpinitpos : 0 <
      (simInit M ⟨init, monthly, years, false⟩).current_price *
        (1 + monthly_growth M) := mul_pos hp hg
  rw [stateAfter_one, stateAfter_one, hsim, step_shares_plain,
    step_shares_reinvest_closed M init monthly years _ (ne_of_gt hpinitpos),
    step_price, step_price, step_cash_plain, step_cash_reinvest]
  simp only [simInit]
  ring

/-- Claim C9, amended: holding metrics and all other config fields equal,
with annualized_yield_rate > 0 the reinvesting run ends with strictly more
total_shares; the two modes' total asset values are exactly equal at
month 1; and they diverge (reinvesting strictly ahead) at every month ≥ 2
whenever additionally the annualized growth rate is non-negative — without
that proviso the two asset trajectories can coincide forever (see the
counterexample). -/
theorem C9_reinvest_effect (M : HistMetrics) (init monthly : ℝ) (years : ℕ)
    (hp : 0 < M.current_price) (hy : 0 < M.yld) (hcagr : -1 < M.cagr)
    (hi : 0 ≤ init) (hc : 0 ≤ monthly) (hpos : 0 < init ∨ 0 < monthly)
    (hyr : 1 ≤ years) :
    ((calculate_projection M ⟨init, monthly, years, false⟩).getD
        (years * 12 - 1) snap0).total_shares <
      ((calculate_projection M ⟨init, monthly, years, true⟩).getD
        (years * 12 - 1) snap0).total_shares ∧
    ((calculate_projection M ⟨init, monthly, years, true⟩).getD 0
        snap0).total_asset =
      ((calculate_projection M ⟨init, monthly, years, false⟩).getD 0
        snap0).total_asset ∧
    (0 ≤ M.cagr → ∀ i, 1 ≤ i → i < years * 12 →
      ((calculate_projection M ⟨init, monthly, years, false⟩).getD i
          snap0).total_asset <
        ((calculate_projection M ⟨init, monthly, years, true⟩).getD i
          snap0).total_asset) := by
  have hg : 0 < 1 + monthly_growth M := one_add_mg_pos M hcagr
  have hlt : years * 12 - 1 < years * 12 := by omega
  have hidx : years * 12 - 1 + 1 = years * 12 := by omega
  refine ⟨?_, ?_, ?_⟩
  · rw [proj_getD M ⟨init, monthly, years, false⟩ hlt,
      proj_getD M ⟨init, monthly, years, true⟩ hlt]
    simp only [mkSnap]
    rw [hidx]
    exact reinvest_shares_dominance M init monthly years hp hy hg hi hc hpos
      (years * 12) (by omega)
  · have h0 : (0 : ℕ) < years * 12 := by omega
    rw [proj_getD M ⟨init, monthly, years, true⟩ h0,
      proj_getD M ⟨init, monthly, years, false⟩ h0]
    simp only [mkSnap, Nat.zero_add]
    exact reinvest_month1_asset_eq M init monthly years hp hg
  · intro hcagr0 i h1 hilt
    rw [proj_getD M ⟨init, monthly, years, false⟩ hilt,
      proj_getD M ⟨init, monthly, years, true⟩ hilt]
    simp only [mkSnap]
    have hinv := (reinvest_asset_invariant M init monthly years hp hy
      (one_add_mg_ge_one M hcagr0) hi hc hpos (i + 1) (by omega)).2 (by omega)
    have hpeq : (stateAfter M ⟨init, monthly, years, true⟩ (i + 1)).current_price =
        (stateAfter M ⟨init, monthly, years, false⟩ (i + 1)).current_price := by
      rw [stateAfter_price, stateAfter_price]
    have hcR := reinvest_cash_zero M init monthly years (i + 1)
    rw [hpeq, hcR]
    nlinarith [hinv]

/-- Witness for C9's amended theorem: with growth 0, yield 0.12, lump sum
100, the month-1 asset values of the two modes coincide exactly. -/
theorem C9_witness :
    (0 : ℝ) < 0.12 ∧
    ((calculate_projection ⟨"W9", 0, 0.12, 100, 1⟩ ⟨100, 0, 1, true⟩).getD 0
        snap0).total_asset =
      ((calculate_projection ⟨"W9", 0, 0.12, 100, 1⟩ ⟨100, 0, 1, false⟩).getD 0
        snap0).total_asset :=
  ⟨by norm_num,
    (C9_reinvest_effect ⟨"W9", 0, 0.12, 100, 1⟩ 100 0 1
      (show (0 : ℝ) < 100 by norm_num) (show (0 : ℝ) < 0.12 by norm_num)
      (show (-1 : ℝ) < 0 by norm_num) (show (0 : ℝ) ≤ 100 by norm_num)
      (show (0 : ℝ) ≤ 0 by norm_num) (Or.inl (show (0 : ℝ) < 100 by norm_num))
      (by norm_num)).2.1⟩

/-- Claim C9 counterexample: at the knife-edge metrics whose monthly growth
factor is 100/101 (so that growth factor × (1 + monthly yield) = 1, with
yield 0.12 > 0) the two modes' asset values do NOT diverge after month 1 —
at month 2 they are exactly equal. -/
theorem C9_counterexample :
    (0 : ℝ) <
      (⟨"K", (100 / 101 : ℝ) ^ (12 : ℕ) - 1, 0.12, 100, 10⟩ :
        HistMetrics).yld ∧
    ((calculate_projection ⟨"K", (100 / 101 : ℝ) ^ (12 : ℕ) - 1, 0.12, 100, 10⟩
        ⟨100, 0, 1, true⟩).getD 1 snap0).total_asset =
      ((calculate_projection ⟨"K", (100 / 101 : ℝ) ^ (12 : ℕ) - 1, 0.12, 100, 10⟩
        ⟨100, 0, 1, false⟩).getD 1 snap0).total_asset := by
  constructor
  · show (0 : ℝ) < 0.12
    norm_num
  · have hq : (((100 : ℝ) / 101) ^ (12 : ℕ)) ^ ((1 : ℝ) / 12) = 100 / 101 := by
      rw [← Real.rpow_natCast ((100 : ℝ) / 101) 12,
        ← Real.rpow_mul (by norm_num : (0 : ℝ) ≤ 100 / 101)]
      norm_num
    have hmg : 1 + monthly_growth
        ⟨"K", (100 / 101 : ℝ) ^ (12 : ℕ) - 1, 0.12, 100, 10⟩ = 100 / 101 := by
      rw [one_add_monthly_growth,
        show (1 : ℝ) + (⟨"K", (100 / 101 : ℝ) ^ (12 : ℕ) - 1, 0.12, 100, 10⟩ :
          HistMetrics).cagr = ((100 : ℝ) / 101) ^ (12 : ℕ) by
            show (1 : ℝ) + ((100 / 101 : ℝ) ^ (12 : ℕ) - 1) = _
            ring,
        hq]
    rw [proj_getD ⟨"K", (100 / 101 : ℝ) ^ (12 : ℕ) - 1, 0.12, 100, 10⟩
        ⟨100, 0, 1, true⟩ (show (1 : ℕ) < 1 * 12 by norm_num),
      proj_getD ⟨"K", (100 / 101 : ℝ) ^ (12 : ℕ) - 1, 0.12, 100, 10⟩
        ⟨100, 0, 1, false⟩ (show (1 : ℕ) < 1 * 12 by norm_num)]
    simp only [mkSnap]
    rw [stateAfter_succ, stateAfter_one, stateAfter_succ, stateAfter_one]
    simp only [monthStep, simInit, monthly_yield, hmg]
    norm_num

end

end ETFApp
